import Mathlib

/-!
Verification of the CI build-duration reporting pipeline: a shallow embedding
of `reports/main.py` (main variant) and `reports/preliminary_study/main.py`
(preliminary variant).  Python strings are `List Char`, floats are `ℚ`
(with the standard-deviation square root landing in `ℝ`), Python dicts are
association lists with last-binding-wins lookup, and Python's stable `sorted`
is `List.insertionSort` with a total boolean key comparison.
-/

/-- Python `str` as a list of characters. -/
abbrev Str := List Char

/-- `s.strip('"')`: remove every leading and trailing double-quote character. -/
def stripQuotes (s : Str) : Str :=
  ((s.dropWhile (fun c => c = '"')).reverse.dropWhile (fun c => c = '"')).reverse

/-- Python dict built by repeated assignment: lookup returns the value of the
last binding of the key (later assignments overwrite earlier ones). -/
def dictGet {α β : Type} [DecidableEq α] (m : List (α × β)) (k : α) : Option β :=
  (m.reverse.find? (fun e => decide (e.1 = k))).map Prod.snd

/-- `startsWithL pre s`: `s` begins with `pre`. -/
def startsWithL : Str → Str → Bool
  | [], _ => true
  | _ :: _, [] => false
  | c :: cs, d :: ds => c == d && startsWithL cs ds

/-- `subOccurs n h`: the substring `n` occurs somewhere in `h` (Python `in`). -/
def subOccurs (needle : Str) : Str → Bool
  | [] => needle.isEmpty
  | d :: ds => startsWithL needle (d :: ds) || subOccurs needle ds

/-- Remove the given leading characters, or fail. -/
def stripPre : Str → Str → Option Str
  | [], s => some s
  | _ :: _, [] => none
  | c :: cs, d :: ds => if c = d then stripPre cs ds else none

/-- Lexicographic strict order on strings by code point (Python `<`). -/
def strLtB : Str → Str → Bool
  | [], [] => false
  | [], _ :: _ => true
  | _ :: _, [] => false
  | c :: cs, d :: ds =>
    if c.toNat < d.toNat then true
    else if d.toNat < c.toNat then false
    else strLtB cs ds

/-- Non-strict lexicographic order on strings. -/
def strLeB (a b : Str) : Bool := !(strLtB b a)

/-- Python `sorted` for a list of strings (stable, lexicographic). -/
def sortStr (l : List Str) : List Str :=
  l.insertionSort (fun a b => strLeB a b = true)

/-- The numeric value of a run of decimal digits. -/
def digitsVal (ds : Str) : ℕ :=
  ds.foldl (fun acc c => acc * 10 + (c.toNat - 48)) 0

/-- Leading sign of a numeric literal: `(isNegative, rest)`. -/
def splitSign : Str → (Bool × Str)
  | '-' :: r => (true, r)
  | '+' :: r => (false, r)
  | s => (false, s)

/-- Exponent tail of a float literal: `m * 10 ^ (signed digits)`. -/
def parseExpPart (m : ℚ) (t : Str) : Option ℚ :=
  let (eneg, t1) := splitSign t
  if t1 = [] then none
  else if t1.all Char.isDigit then
    some (m * (10 : ℚ) ^ (if eneg then -(digitsVal t1 : ℤ) else (digitsVal t1 : ℤ)))
  else none

/-- Python `float()` on decimal literals:
`[ws] [sign] digits [. digits] [(e|E) [sign] digits] [ws]`; `none` when the
text is not of that shape (models the `ValueError` branch).  Special forms
such as `inf`, `nan` or digit-group underscores are not modelled. -/
def parseFloat (s : Str) : Option ℚ :=
  let s2 := ((s.dropWhile Char.isWhitespace).reverse.dropWhile Char.isWhitespace).reverse
  let (neg, s1) := splitSign s2
  let ip := s1.takeWhile Char.isDigit
  let r1 := s1.dropWhile Char.isDigit
  let fr : Str × Str :=
    match r1 with
    | '.' :: t => (t.takeWhile Char.isDigit, t.dropWhile Char.isDigit)
    | _ => ([], r1)
  let fp := fr.1
  let r2 := fr.2
  if ip = [] ∧ fp = [] then none
  else
    let mant : ℚ := (digitsVal ip : ℚ) + (digitsVal fp : ℚ) / (10 : ℚ) ^ fp.length
    let signed : ℚ := if neg then -mant else mant
    match r2 with
    | [] => some signed
    | 'e' :: t => parseExpPart signed t
    | 'E' :: t => parseExpPart signed t
    | _ => none

/-- `allElems p l`: every element of `l` satisfies `p`. -/
def allElems {α : Type} (p : α → Prop) : List α → Prop
  | [] => True
  | a :: l => p a ∧ allElems p l

instance allElemsDec {α : Type} (p : α → Prop) [DecidablePred p] :
    (l : List α) → Decidable (allElems p l)
  | [] => isTrue trivial
  | a :: l =>
    have : Decidable (allElems p l) := allElemsDec p l
    inferInstanceAs (Decidable (p a ∧ allElems p l))

/-! ## Data model of the main variant (`reports/main.py`) -/

/-- One observed "Run nix build" step execution. -/
structure BuildRow where
  run_id : Str
  run_number : ℤ
  job_name_raw : Str
  job_name : Str
  target : Str
  tool : Str
  phase : Str
  duration_s : ℚ
deriving DecidableEq, Repr

/-- One whitelist record of the selection CSV. -/
structure AllowedEntry where
  run_id : Str
  run_number : Option ℤ := none
  note : Str := []
deriving DecidableEq, Repr

/-- One record of the steps CSV.  `run_id` is accessed as `r["run_id"]` in the
source (a absent key would abort); the other columns go through `.get` and are
optional. -/
structure StepRec where
  run_id : Str
  step_name : Option Str
  job_name : Option Str
  duration_s : Option Str
deriving DecidableEq, Repr

/-- One record of the runs CSV.  `run_number` holds the already-parsed integer
of a present non-empty cell; `none` stands for a missing or empty cell
(`int(r.get("run_number") or 0)` in the source). -/
structure RunRec where
  run_id : Option Str
  id : Option Str
  run_number : Option ℤ
deriving DecidableEq, Repr

/-- `str(r.get("run_id") or r.get("id"))`: first truthy value, `str(None)`
being the literal string `"None"` when both are missing or empty. -/
def pyStrOr (a b : Option Str) : Str :=
  match a with
  | some s => if s ≠ [] then s else (match b with | some t => t | none => "None".data)
  | none => match b with | some t => t | none => "None".data

/-- The run identifier a run record is keyed by. -/
def effectiveRunId (r : RunRec) : Str := stripQuotes (pyStrOr r.run_id r.id)

/-- `map_run_number`: run_id → run_number, a missing or empty run_number cell
defaulting to 0; later records overwrite earlier ones. -/
def map_run_number (runs : List RunRec) : List (Str × ℤ) :=
  runs.map (fun r => (effectiveRunId r, r.run_number.getD 0))

/-- `TOOL_NORMALIZE`: the static alias table for cache-tool identifiers. -/
def TOOL_NORMALIZE : List (Str × Str) :=
  [("none".data, "none".data),
   ("cachix-action".data, "cachix".data),
   ("cache-nix-action".data, "cache-nix-action".data),
   ("magic-nix-cache-action".data, "magic-nix-cache".data)]

/-- `TOOL_NORMALIZE.get(raw_tool, raw_tool)`: normalize a tool name, unknown
names passing through unchanged. -/
def normTool (s : Str) : Str := (dictGet TOOL_NORMALIZE s).getD s

/-- The match of `JOB_NAME_RE`, the regular expression
`^build_(?P<target>[^_]+)_cachetool_(?P<tool>[^_]+)_phase_(?P<phase>.+)$`,
against a job name, yielding the three capture groups.  `[^_]+` takes the
maximal nonempty run of non-underscore characters; `.` does not match a
newline; the final `$` matches at the end of the string or just before one
trailing newline (Python semantics without `re.MULTILINE`/`re.DOTALL`). -/
def jobNameMatch (s : Str) : Option (Str × Str × Str) :=
  match stripPre "build_".data s with
  | none => none
  | some r1 =>
    if r1.takeWhile (fun c => c != '_') = [] then none
    else
      match stripPre "_cachetool_".data (r1.dropWhile (fun c => c != '_')) with
      | none => none
      | some r2 =>
        if r2.takeWhile (fun c => c != '_') = [] then none
        else
          match stripPre "_phase_".data (r2.dropWhile (fun c => c != '_')) with
          | none => none
          | some r3 =>
            if r3.takeWhile (fun c => c != '\n') = [] then none
            else if r3.dropWhile (fun c => c != '\n') = [] ∨
                r3.dropWhile (fun c => c != '\n') = ['\n'] then
              some (r1.takeWhile (fun c => c != '_'),
                r2.takeWhile (fun c => c != '_'),
                r3.takeWhile (fun c => c != '\n'))
            else none

/-- `parse_job`: match the job-name pattern and normalize the tool. -/
def parse_job (s : Str) : Option (Str × Str × Str) :=
  (jobNameMatch s).map (fun g => (g.1, normTool g.2.1, g.2.2))

/-- The property of being a string of the form
`build_<target>_cachetool_<tool>_phase_<phase>` with nonempty
underscore-free target and tool and nonempty phase. -/
def IsJobForm (s t x p : Str) : Prop :=
  s = "build_".data ++ t ++ "_cachetool_".data ++ x ++ "_phase_".data ++ p ∧
    t ≠ [] ∧ '_' ∉ t ∧ x ≠ [] ∧ '_' ∉ x ∧ p ≠ []

instance (s t x p : Str) : Decidable (IsJobForm s t x p) := by
  unfold IsJobForm; infer_instance

/-- `make_selector`: the whitelist predicate, true exactly when the run_id is
listed; the job name plays no role. -/
def make_selector (rules : List AllowedEntry) : Str → Str → Bool :=
  fun run_id _job_name_raw => decide (run_id ∈ rules.map AllowedEntry.run_id)

/-- The body of the row loop of `load_build_rows` of the main variant: the
`BuildRow` a step record yields, or `none` when a guard skips it. -/
def loadStep (runs : List RunRec) (selector : Str → Str → Bool) (r : StepRec) :
    Option BuildRow :=
  if r.step_name ≠ some "Run nix build".data then none
  else
    match r.duration_s with
    | none => none
    | some dur =>
      if dur = [] ∨ dur = "null".data then none
      else
        match parseFloat dur with
        | none => none
        | some duration =>
          if duration ≤ 0 then none
          else
            match dictGet (map_run_number runs) (stripQuotes r.run_id) with
            | none => none
            | some run_number =>
              if selector (stripQuotes r.run_id) (r.job_name.getD []) = false then
                none
              else
                match parse_job (r.job_name.getD []) with
                | none => none
                | some g =>
                  some { run_id := stripQuotes r.run_id,
                         run_number := run_number,
                         job_name_raw := r.job_name.getD [],
                         job_name := g.1 ++ "_build".data,
                         target := g.1, tool := g.2.1, phase := g.2.2,
                         duration_s := duration }

/-- `load_build_rows` of the main variant. -/
def load_build_rows (steps : List StepRec) (runs : List RunRec)
    (selector : Str → Str → Bool) : List BuildRow :=
  steps.filterMap (loadStep runs selector)

/-! ## Cycle-index assignment (`group_cycle_index`) -/

/-- Python `sorted(lst, key=lambda x: x.run_number)`: stable sort. -/
def sortRn (l : List BuildRow) : List BuildRow :=
  l.insertionSort (fun a b => a.run_number ≤ b.run_number)

/-- The `(target, tool, phase)` bucket of a row list, in row order. -/
def groupRows3 (rows : List BuildRow) (k : Str × Str × Str) : List BuildRow :=
  rows.filter (fun r => decide ((r.target, r.tool, r.phase) = k))

/-- The bindings of the dict comprehension
`{r.run_id: i + 1 for i, r in enumerate(lst_sorted)}`, in insertion order,
starting the enumeration at `i0`. -/
def cycleAssignFrom : ℕ → List BuildRow → List (Str × ℕ)
  | _, [] => []
  | i, r :: rs => (r.run_id, i + 1) :: cycleAssignFrom (i + 1) rs

/-- `group_cycle_index` as a lookup: the cycle number of run `rid` within the
`(target, tool, phase)` bucket `k` (`none` models the absent-key empty cell of
`idx_map.get(key, {}).get(run_id, "")`). -/
def group_cycle_index (rows : List BuildRow) (k : Str × Str × Str) (rid : Str) :
    Option ℕ :=
  dictGet (cycleAssignFrom 0 (sortRn (groupRows3 rows k))) rid

/-! ## Report writers

A CSV record is a list of cells; the file layer renders `.str` verbatim,
`.int`/`.nat` as decimal integers, `.rat`/`.real` to three decimal places
(`f"{v:.3f}"`), and `.blank` as the empty string. -/

/-- One CSV cell of an output record. -/
inductive Cell where
  | str (v : Str)
  | int (v : ℤ)
  | nat (v : ℕ)
  | rat (v : ℚ)
  | real (v : ℝ)
  | blank

/-- Job-totals table of `load_job_totals`: `(run_id, job_name) → seconds`. -/
abbrev JobTotals := List ((Str × Str) × ℚ)

/-- Sort key order of `write_detail_csv`: `(job_name, tool, phase, run_number)`. -/
def detailLt (a b : BuildRow) : Bool :=
  strLtB a.job_name b.job_name ||
    (a.job_name == b.job_name && (strLtB a.tool b.tool ||
      (a.tool == b.tool && (strLtB a.phase b.phase ||
        (a.phase == b.phase && decide (a.run_number < b.run_number))))))

/-- Sort key order of `write_speed_csv`: `(run_number, tool, phase)`. -/
def speedLt (a b : BuildRow) : Bool :=
  decide (a.run_number < b.run_number) ||
    (a.run_number == b.run_number && (strLtB a.tool b.tool ||
      (a.tool == b.tool && strLtB a.phase b.phase)))

/-- Sort key order of `write_combined_csv`: `(job_name, run_number, tool)`. -/
def combinedLt (a b : BuildRow) : Bool :=
  strLtB a.job_name b.job_name ||
    (a.job_name == b.job_name && (decide (a.run_number < b.run_number) ||
      (a.run_number == b.run_number && strLtB a.tool b.tool)))

/-- Lexicographic order on `(job_name, tool, phase)` keys. -/
def keyLt (a b : Str × Str × Str) : Bool :=
  strLtB a.1 b.1 ||
    (a.1 == b.1 && (strLtB a.2.1 b.2.1 ||
      (a.2.1 == b.2.1 && strLtB a.2.2 b.2.2)))

/-- `write_detail_csv` as the list of CSV records it writes. -/
def write_detail_rows (rows : List BuildRow) : List (List Cell) :=
  [Cell.str "run_number".data, Cell.str "job_name".data, Cell.str "tool".data,
   Cell.str "phase".data, Cell.str "cycle_index".data, Cell.str "duration_s".data,
   Cell.str "run_id".data] ::
  (rows.insertionSort (fun a b => (!(detailLt b a)) = true)).map (fun r =>
    [Cell.int r.run_number, Cell.str r.job_name, Cell.str r.tool,
     Cell.str r.phase,
     (group_cycle_index rows (r.target, r.tool, r.phase) r.run_id).elim
       Cell.blank Cell.nat,
     Cell.rat r.duration_s, Cell.str r.run_id])

/-- The `vals` list of `compute_baseline`: the durations of the rows of the
job with `tool="none"` and `phase="generate-cache"`. -/
def baselineVals (rows : List BuildRow) (job_name : Str) : List ℚ :=
  (rows.filter (fun r =>
    decide (r.job_name = job_name ∧ r.tool = "none".data ∧
      r.phase = "generate-cache".data))).map (fun r => r.duration_s)

/-- `compute_baseline`: the mean duration of the baseline rows of the job,
`None` when there are none. -/
def compute_baseline (rows : List BuildRow) (job_name : Str) : Option ℚ :=
  if baselineVals rows job_name = [] then none
  else some ((baselineVals rows job_name).sum / (baselineVals rows job_name).length)

/-- The `speedup_vs_baseline` cell of one row of `write_speed_csv`:
`speed = (base / r.duration_s) if base and r.duration_s else None`, a `None`
or zero speed rendering as the empty cell. -/
def speedupCell (base : Option ℚ) (d : ℚ) : Cell :=
  match base with
  | none => Cell.blank
  | some b =>
    if b ≠ 0 ∧ d ≠ 0 then
      (if b / d ≠ 0 then Cell.rat (b / d) else Cell.blank)
    else Cell.blank

/-- `sorted({r.job_name for r in rows})`: the distinct job names in
lexicographic order. -/
def jobNames (rows : List BuildRow) : List Str :=
  sortStr ((rows.map (fun r => r.job_name)).dedup)

/-- `write_speed_csv` as the list of CSV records it writes. -/
def write_speed_rows (rows : List BuildRow) : List (List Cell) :=
  [Cell.str "job_name".data, Cell.str "tool".data, Cell.str "phase".data,
   Cell.str "run_number".data, Cell.str "duration_s".data,
   Cell.str "speedup_vs_baseline".data] ::
  (jobNames rows).flatMap (fun job =>
    let base := compute_baseline rows job
    ((rows.filter (fun r => decide (r.job_name = job))).insertionSort
        (fun a b => (!(speedLt b a)) = true)).map (fun r =>
      [Cell.str job, Cell.str r.tool, Cell.str r.phase, Cell.int r.run_number,
       Cell.rat r.duration_s, speedupCell base r.duration_s]))

/-- `write_combined_csv` as the list of CSV records it writes. -/
def write_combined_rows (rows : List BuildRow) (job_totals : JobTotals) :
    List (List Cell) :=
  [Cell.str "run_number".data, Cell.str "job_name".data, Cell.str "tool".data,
   Cell.str "phase".data, Cell.str "build_s".data, Cell.str "job_total_s".data,
   Cell.str "build_share".data, Cell.str "run_id".data] ::
  (rows.insertionSort (fun a b => (!(combinedLt b a)) = true)).map (fun r =>
    let tot := dictGet job_totals (r.run_id, r.job_name_raw)
    [Cell.int r.run_number, Cell.str r.job_name, Cell.str r.tool,
     Cell.str r.phase, Cell.rat r.duration_s,
     tot.elim Cell.blank Cell.rat,
     (match tot with
      | some t => if 0 < t then Cell.rat (r.duration_s / t) else Cell.blank
      | none => Cell.blank),
     Cell.str r.run_id])

/-! ## Summary writer (`write_summary_csv`) -/

/-- `mean(xs)`: `None` on the empty list. -/
def meanQ (xs : List ℚ) : Option ℚ :=
  if xs = [] then none else some (xs.sum / xs.length)

/-- `std(xs)`: the Bessel-corrected sample standard deviation, literally `0.0`
for one value and `None` for none. -/
noncomputable def stdFn (xs : List ℚ) : Option ℝ :=
  if xs.length < 2 then (if xs = [] then none else some 0)
  else
    some (Real.sqrt
      (((xs.map (fun x => (x - xs.sum / xs.length) ^ 2)).sum /
        ((xs.length : ℚ) - 1) : ℚ) : ℝ))

/-- The `(job_name, tool, phase)` group of a row list, in row order. -/
def groupRows (rows : List BuildRow) (k : Str × Str × Str) : List BuildRow :=
  rows.filter (fun r => decide ((r.job_name, r.tool, r.phase) = k))

/-- The sorted distinct `(job_name, tool, phase)` keys of the summary. -/
def summaryKeys (rows : List BuildRow) : List (Str × Str × Str) :=
  ((rows.map (fun r => (r.job_name, r.tool, r.phase))).dedup).insertionSort
    (fun a b => (!(keyLt b a)) = true)

/-- An optional rational as a CSV cell. -/
def optQCell (o : Option ℚ) : Cell := o.elim Cell.blank Cell.rat

/-- The `build_std_s` cell of the summary row of group `k`. -/
noncomputable def summaryStdCell (rows : List BuildRow) (k : Str × Str × Str) :
    Cell :=
  (stdFn ((groupRows rows k).map (fun r => r.duration_s))).elim Cell.blank
    Cell.real

/-- One record of `write_summary_csv`: the per-group counts, means, standard
deviation and shares (`isinstance(b, float)` always holds of a duration, so
`build_vals` is the whole duration list). -/
noncomputable def summaryRecord (rows : List BuildRow) (job_totals : JobTotals)
    (k : Str × Str × Str) : List Cell :=
  let grp := groupRows rows k
  let vals : List (ℚ × Option ℚ) :=
    grp.map (fun r => (r.duration_s, dictGet job_totals (r.run_id, r.job_name_raw)))
  let build_vals := vals.map Prod.fst
  let total_vals := vals.filterMap Prod.snd
  let share_vals := vals.filterMap (fun v =>
    match v.2 with
    | some t => if 0 < t then some (v.1 / t) else none
    | none => none)
  [Cell.str k.1, Cell.str k.2.1, Cell.str k.2.2, Cell.nat vals.length,
   optQCell (meanQ build_vals), (stdFn build_vals).elim Cell.blank Cell.real,
   optQCell (meanQ total_vals), optQCell (meanQ share_vals)]

/-- `write_summary_csv` as the list of CSV records it writes. -/
noncomputable def write_summary_rows (rows : List BuildRow)
    (job_totals : JobTotals) : List (List Cell) :=
  [Cell.str "job_name".data, Cell.str "tool".data, Cell.str "phase".data,
   Cell.str "n".data, Cell.str "build_mean_s".data, Cell.str "build_std_s".data,
   Cell.str "job_total_mean_s".data, Cell.str "build_share_mean".data] ::
  (summaryKeys rows).map (fun k => summaryRecord rows job_totals k)

/-! ## Startup input validation of `main()` (main variant) -/

/-- Which of the four expected input files exist. -/
structure FileSet where
  selection : Bool
  steps : Bool
  runs : Bool
  jobs : Bool
deriving DecidableEq, Repr

/-- Expected path of the steps CSV. -/
def stepsPath : Str := "reports/actions_log/actions_steps.csv".data

/-- Expected path of the runs CSV. -/
def runsPath : Str := "reports/actions_log/actions_runs.csv".data

/-- Expected path of the jobs CSV. -/
def jobsPath : Str := "reports/actions_log/actions_jobs.csv".data

/-- Expected (default) path of the selection whitelist CSV. -/
def selectionPath : Str := "reports/actions_log/selection.csv".data

/-- The single-line message of `read_selection_csv` when the whitelist file
does not exist. -/
def selectionNotFoundLine : Str :=
  "selection csv not found: ".data ++ selectionPath

/-- First line of the missing-input enumeration of `main()`. -/
def missingHeaderLine : Str := "Input CSV missing under reports/actions_log:".data

/-- The placement remediation hint of `main()`. -/
def hintPlaceLine : Str :=
  "Place actions_runs.csv, actions_jobs.csv, actions_steps.csv, selection.csv in reports/actions_log.".data

/-- The fetch remediation hint of `main()`. -/
def hintFetchLine : Str :=
  "You can fetch them via: OWNER=<OWNER> REPO=<REPO> WORKFLOW=build.yml OUTDIR=reports/actions_log GH_TOKEN=$GH_TOKEN bash reports/actions_log/export_actions_csv.sh".data

/-- The startup of `main()` up to the loading of rows: `read_selection_csv`
runs first and raises on a missing whitelist; only then are the four expected
paths checked and the missing ones enumerated with the two hints.  The result
is the lines of the raised error message, `none` when startup proceeds. -/
def mainStartup (fs : FileSet) : Option (List Str) :=
  if fs.selection = false then some [selectionNotFoundLine]
  else
    let missing :=
      (if fs.steps = false then [stepsPath] else []) ++
      (if fs.runs = false then [runsPath] else []) ++
      (if fs.jobs = false then [jobsPath] else []) ++
      (if fs.selection = false then [selectionPath] else [])
    if missing = [] then none
    else some (missingHeaderLine :: missing.map (fun p => " - ".data ++ p) ++
      [hintPlaceLine, hintFetchLine])

/-- A path is mentioned in a message when it occurs in one of its lines. -/
def mentionsPath (msg : List Str) (p : Str) : Bool :=
  msg.any (fun line => subOccurs p line)

/-! ## Data model of the preliminary variant
(`reports/preliminary_study/main.py`) -/

/-- One build row of the preliminary variant. -/
structure BuildRowP where
  run_id : Str
  run_number : ℤ
  job_name : Str
  tool : Str
  phase : Str
  duration_s : ℚ
deriving DecidableEq, Repr

/-- `CACHE_KEYWORDS`: step-name markers that reveal the cache tool of a run. -/
def CACHE_KEYWORDS : List (Str × List Str) :=
  [("magic-nix-cache".data, ["DeterminateSystems/magic-nix-cache-action".data]),
   ("cachix".data, ["cachix/cachix-action".data]),
   ("cache-nix-action".data, ["cache-nix-action".data])]

/-- `TOOL_BY_RUN_NUMBER`: the static run-number → tool override table. -/
def TOOL_BY_RUN_NUMBER : List (ℤ × Str) :=
  [(2, "none".data), (3, "cachix".data), (4, "cachix".data),
   (7, "cache-nix-action".data), (8, "cache-nix-action".data),
   (9, "magic-nix-cache".data), (10, "magic-nix-cache".data)]

/-- `map_run_cache` read back for one run: every tool one of whose markers
occurs in a step name of the run; none detected is `"none"`, one is that tool,
several are joined `"+"`-separated in sorted order. -/
def map_run_cache (steps : List StepRec) (rid : Str) : Str :=
  let found := CACHE_KEYWORDS.filterMap (fun kw =>
    if steps.any (fun r => stripQuotes r.run_id == rid &&
        kw.2.any (fun n => subOccurs n (r.step_name.getD []))) then
      some kw.1
    else none)
  match found with
  | [] => "none".data
  | [t] => t
  | ts => List.intercalate "+".data (sortStr ts)

/-- `phase_from_run_number` with `BASELINE_RUN = 2`. -/
def phase_from_run_number (n : ℤ) : Str :=
  if n = 2 then "baseline".data
  else if n = 3 ∨ n = 7 ∨ n = 9 then "first".data
  else if n = 4 ∨ n = 8 ∨ n = 10 then "second".data
  else "other".data

/-- The body of the row loop of `load_build_rows` of the preliminary variant.
Unlike the main variant it has no positivity guard on the parsed duration. -/
def loadStepPre (steps : List StepRec) (runs : List RunRec) (r : StepRec) :
    Option BuildRowP :=
  if r.step_name ≠ some "Run nix build".data then none
  else
    match r.duration_s with
    | none => none
    | some dur =>
      if dur = [] ∨ dur = "null".data then none
      else
        match parseFloat dur with
        | none => none
        | some duration =>
          match dictGet (map_run_number runs) (stripQuotes r.run_id) with
          | none => none
          | some run_number =>
            some { run_id := stripQuotes r.run_id, run_number := run_number,
                   job_name := r.job_name.getD [],
                   tool := (dictGet TOOL_BY_RUN_NUMBER run_number).getD
                     (map_run_cache steps (stripQuotes r.run_id)),
                   phase := phase_from_run_number run_number,
                   duration_s := duration }

/-- `load_build_rows` of the preliminary variant. -/
def load_build_rows_pre (steps : List StepRec) (runs : List RunRec) :
    List BuildRowP :=
  steps.filterMap (loadStepPre steps runs)

/-! ## Helper lemmas -/

theorem allElems_iff_mem {α : Type} {p : α → Prop} {l : List α} :
    allElems p l ↔ ∀ x ∈ l, p x := by
  induction l with
  | nil => simp [allElems]
  | cons a t ih => simp [allElems, ih]

theorem loadStep_some {runs : List RunRec} {sel : Str → Str → Bool}
    {r : StepRec} {br : BuildRow} (h : loadStep runs sel r = some br) :
    0 < br.duration_s ∧
      dictGet (map_run_number runs) br.run_id = some br.run_number := by
  unfold loadStep at h
  repeat' split at h
  any_goals exact Option.noConfusion h
  injection h with h
  subst h
  exact ⟨lt_of_not_le (by assumption), by assumption⟩

theorem loadStepPre_some {steps : List StepRec} {runs : List RunRec}
    {r : StepRec} {br : BuildRowP} (h : loadStepPre steps runs r = some br) :
    (∃ d, r.duration_s = some d ∧ d ≠ [] ∧ d ≠ "null".data ∧
      parseFloat d = some br.duration_s) ∧
      dictGet (map_run_number runs) br.run_id = some br.run_number := by
  unfold loadStepPre at h
  repeat' split at h
  any_goals exact Option.noConfusion h
  injection h with h
  subst h
  exact ⟨⟨_, by assumption, fun hc => (by assumption : ¬ _) (Or.inl hc),
    fun hc => (by assumption : ¬ _) (Or.inr hc), by assumption⟩, by assumption⟩

theorem load_pos {steps : List StepRec} {runs : List RunRec}
    {sel : Str → Str → Bool} {r : BuildRow}
    (h : r ∈ load_build_rows steps runs sel) : 0 < r.duration_s := by
  obtain ⟨a, _, ha⟩ := List.mem_filterMap.mp h
  exact (loadStep_some ha).1

/-! ## Claim C1: positivity of durations -/

/-- C1 (amended): in the main variant every `BuildRow` produced by
`load_build_rows` has `duration_s` strictly greater than 0 (missing, empty,
`"null"`, unparseable and non-positive durations are all excluded before any
aggregation); in the preliminary variant, every produced `BuildRow` carries
the successfully parsed value of a present, nonempty, non-`"null"` duration
field, but non-positive parsed durations are not excluded. -/
theorem c1_duration_positive_amended :
    (∀ (steps : List StepRec) (runs : List RunRec) (sel : Str → Str → Bool),
      allElems (fun r => 0 < r.duration_s) (load_build_rows steps runs sel)) ∧
    (∀ (steps : List StepRec) (runs : List RunRec),
      allElems (fun r => ∃ st ∈ steps, ∃ d, st.duration_s = some d ∧
        d ≠ [] ∧ d ≠ "null".data ∧ parseFloat d = some r.duration_s)
        (load_build_rows_pre steps runs)) := by
  constructor
  · intro steps runs sel
    rw [allElems_iff_mem]
    intro x hx
    exact load_pos hx
  · intro steps runs
    rw [allElems_iff_mem]
    intro x hx
    obtain ⟨a, ha, hs⟩ := List.mem_filterMap.mp hx
    obtain ⟨⟨d, hd1, hd2, hd3, hd4⟩, _⟩ := loadStepPre_some hs
    exact ⟨a, ha, d, hd1, hd2, hd3, hd4⟩

unseal Rat.add Rat.mul Rat.inv Rat.sub in
/-- C1 counterexample: in the preliminary variant a step whose duration field
parses to the negative number `-1` is kept, so not every row reaching
aggregation has a positive duration. -/
theorem c1_counterexample :
    ¬ allElems (fun r => 0 < r.duration_s)
      (load_build_rows_pre
        [⟨"r1".data, some "Run nix build".data, some "job1".data,
          some "-1".data⟩]
        [⟨some "r1".data, none, some 5⟩]) := by decide

/-! ## Claim C6: run-number lookup -/

/-- C6 (amended): in both variants every produced `BuildRow` carries exactly
the value of `map_run_number` at its `run_id` — so a step whose `run_id`
appears in no run record is dropped; a run record that is present but has a
missing or empty run_number cell, however, records the default `0` rather
than causing the step to be dropped. -/
theorem c6_run_number_amended :
    (∀ (steps : List StepRec) (runs : List RunRec) (sel : Str → Str → Bool),
      allElems (fun br =>
        dictGet (map_run_number runs) br.run_id = some br.run_number)
        (load_build_rows steps runs sel)) ∧
    (∀ (steps : List StepRec) (runs : List RunRec),
      allElems (fun br =>
        dictGet (map_run_number runs) br.run_id = some br.run_number)
        (load_build_rows_pre steps runs)) := by
  constructor
  · intro steps runs sel
    rw [allElems_iff_mem]
    intro x hx
    obtain ⟨a, _, ha⟩ := List.mem_filterMap.mp hx
    exact (loadStep_some ha).2
  · intro steps runs
    rw [allElems_iff_mem]
    intro x hx
    obtain ⟨a, _, ha⟩ := List.mem_filterMap.mp hx
    exact (loadStepPre_some ha).2

unseal Rat.add Rat.mul Rat.inv Rat.sub in
/-- C6 counterexample: a run record that names `r1` but gives no run_number
still keys the step to the fabricated run_number 0, so a row whose run
records give no run_number is not dropped and does not carry a recorded
run_number. -/
theorem c6_counterexample :
    ¬ allElems (fun br =>
        ∃ rr ∈ [(⟨some "r1".data, none, none⟩ : RunRec)],
          effectiveRunId rr = br.run_id ∧ rr.run_number = some br.run_number)
      (load_build_rows
        [⟨"r1".data, some "Run nix build".data,
          some "build_z_cachetool_none_phase_generate-cache".data,
          some "2.0".data⟩]
        [⟨some "r1".data, none, none⟩] (fun _ _ => true)) := by decide

/-! ## Claim C8: idempotence of tool normalization -/

theorem normTool_not_mem {s : Str} (h : s ∉ TOOL_NORMALIZE.map Prod.fst) :
    normTool s = s := by
  have hf : TOOL_NORMALIZE.reverse.find? (fun e => decide (e.1 = s)) = none := by
    rw [List.find?_eq_none]
    intro e he
    simp only [decide_eq_true_eq]
    intro hes
    exact h (List.mem_map.mpr ⟨e, List.mem_reverse.mp he, hes⟩)
  unfold normTool dictGet
  rw [hf]
  rfl

/-- C8: tool normalization is idempotent; the four canonical names are fixed
points, the two proper aliases map to their canonical values, and any string
outside the alias table passes through unchanged. -/
theorem c8_tool_normalize_idempotent :
    ∀ s : Str,
      normTool (normTool s) = normTool s ∧
      (normTool "none".data = "none".data ∧
        normTool "cachix".data = "cachix".data ∧
        normTool "cache-nix-action".data = "cache-nix-action".data ∧
        normTool "magic-nix-cache".data = "magic-nix-cache".data) ∧
      (normTool "cachix-action".data = "cachix".data ∧
        normTool "magic-nix-cache-action".data = "magic-nix-cache".data) ∧
      (s ∉ TOOL_NORMALIZE.map Prod.fst → normTool s = s) := by
  intro s
  refine ⟨?_, ⟨by decide, by decide, by decide, by decide⟩,
    ⟨by decide, by decide⟩, fun h => normTool_not_mem h⟩
  by_cases h : s ∈ TOOL_NORMALIZE.map Prod.fst
  · simp only [TOOL_NORMALIZE, List.map_cons, List.map_nil, List.mem_cons,
      List.not_mem_nil, or_false] at h
    rcases h with h | h | h | h <;> subst h <;> decide
  · rw [normTool_not_mem h, normTool_not_mem h]

/-- C8 witness: idempotence at the alias `cachix-action` and pass-through of
the unknown name `foo`. -/
theorem c8_witness :
    normTool (normTool "cachix-action".data) = normTool "cachix-action".data ∧
      normTool "foo".data = "foo".data :=
  ⟨(c8_tool_normalize_idempotent "cachix-action".data).1,
   (c8_tool_normalize_idempotent "foo".data).2.2.2 (by decide)⟩

/-! ## Claim C10: writers on the empty row list -/

/-- C10: on an empty surviving row list each of the four CSV writers still
emits exactly its fixed header record and no data records. -/
theorem c10_writers_empty :
    ∀ job_totals : JobTotals,
      write_detail_rows [] =
        [[Cell.str "run_number".data, Cell.str "job_name".data,
          Cell.str "tool".data, Cell.str "phase".data,
          Cell.str "cycle_index".data, Cell.str "duration_s".data,
          Cell.str "run_id".data]] ∧
      write_speed_rows [] =
        [[Cell.str "job_name".data, Cell.str "tool".data, Cell.str "phase".data,
          Cell.str "run_number".data, Cell.str "duration_s".data,
          Cell.str "speedup_vs_baseline".data]] ∧
      write_combined_rows [] job_totals =
        [[Cell.str "run_number".data, Cell.str "job_name".data,
          Cell.str "tool".data, Cell.str "phase".data, Cell.str "build_s".data,
          Cell.str "job_total_s".data, Cell.str "build_share".data,
          Cell.str "run_id".data]] ∧
      write_summary_rows [] job_totals =
        [[Cell.str "job_name".data, Cell.str "tool".data, Cell.str "phase".data,
          Cell.str "n".data, Cell.str "build_mean_s".data,
          Cell.str "build_std_s".data, Cell.str "job_total_mean_s".data,
          Cell.str "build_share_mean".data]] :=
  fun _ => ⟨rfl, rfl, rfl, rfl⟩

/-! ## Claim C9: whitelist run_number and note carry no effect -/

theorem loadStep_sel_congr {runs : List RunRec} {s1 s2 : Str → Str → Bool}
    (h : ∀ rid j, s1 rid j = s2 rid j) (r : StepRec) :
    loadStep runs s1 r = loadStep runs s2 r := by
  unfold loadStep
  simp only [h]

/-- C9: two whitelists listing the same set of run_id values — whatever their
run_number and note fields — make `load_build_rows` produce the identical
list of `BuildRow`s: inclusion depends only on run_id membership. -/
theorem c9_whitelist_fields_irrelevant :
    ∀ (steps : List StepRec) (runs : List RunRec)
      (rules1 rules2 : List AllowedEntry),
      (∀ i ∈ rules1.map AllowedEntry.run_id, i ∈ rules2.map AllowedEntry.run_id) →
      (∀ i ∈ rules2.map AllowedEntry.run_id, i ∈ rules1.map AllowedEntry.run_id) →
      load_build_rows steps runs (make_selector rules1) =
        load_build_rows steps runs (make_selector rules2) := by
  intro steps runs rules1 rules2 h12 h21
  unfold load_build_rows
  refine List.filterMap_congr (fun a _ => ?_)
  refine loadStep_sel_congr (fun rid j => ?_) a
  unfold make_selector
  exact decide_eq_decide.mpr ⟨fun h => h12 _ h, fun h => h21 _ h⟩

/-- C9 witness: two whitelists with the same run_id set but different
run_number and note fields select the same rows on a concrete input. -/
theorem c9_witness :
    load_build_rows
        [⟨"r1".data, some "Run nix build".data,
          some "build_z_cachetool_none_phase_generate-cache".data,
          some "2.0".data⟩]
        [⟨some "r1".data, none, some 5⟩]
        (make_selector [⟨"r1".data, some 1, "kept".data⟩]) =
      load_build_rows
        [⟨"r1".data, some "Run nix build".data,
          some "build_z_cachetool_none_phase_generate-cache".data,
          some "2.0".data⟩]
        [⟨some "r1".data, none, some 5⟩]
        (make_selector [⟨"r1".data, none, []⟩, ⟨"r1".data, some 7, "dup".data⟩]) :=
  c9_whitelist_fields_irrelevant _ _ _ _ (by decide) (by decide)

/-! ## Claim C2: the speedup column -/

/-- C2: for every row produced by the main variant's loader, the
`speedup_vs_baseline` cell written by the speedup writer is blank exactly when
the row's job has no baseline rows (`tool="none"`, `phase="generate-cache"`),
and otherwise equals the mean duration of those baseline rows divided by the
row's own duration, computed per individual row. -/
theorem c2_speedup_cell :
    ∀ (steps : List StepRec) (runs : List RunRec) (sel : Str → Str → Bool)
      (r : BuildRow) (ds : List ℚ),
      r ∈ load_build_rows steps runs sel →
      ds = baselineVals (load_build_rows steps runs sel) r.job_name →
      speedupCell (compute_baseline (load_build_rows steps runs sel) r.job_name)
          r.duration_s =
        (if ds = [] then Cell.blank
         else Cell.rat (ds.sum / ds.length / r.duration_s)) := by
  intro steps runs sel r ds hr hds
  subst hds
  by_cases hempty : baselineVals (load_build_rows steps runs sel) r.job_name = []
  · rw [compute_baseline, if_pos hempty, if_pos hempty]
    rfl
  · have hpos :
        ∀ x ∈ baselineVals (load_build_rows steps runs sel) r.job_name, 0 < x := by
      intro x hx
      obtain ⟨y, hy, hyx⟩ := List.mem_map.mp hx
      exact hyx ▸ load_pos (List.mem_filter.mp hy).1
    have hsum : 0 < (baselineVals (load_build_rows steps runs sel) r.job_name).sum :=
      List.sum_pos _ hpos hempty
    have hlen :
        0 < ((baselineVals (load_build_rows steps runs sel) r.job_name).length : ℚ) := by
      have := List.length_pos.mpr hempty
      exact_mod_cast this
    have hmean :
        0 < (baselineVals (load_build_rows steps runs sel) r.job_name).sum /
          ((baselineVals (load_build_rows steps runs sel) r.job_name).length : ℚ) :=
      div_pos hsum hlen
    have hd : 0 < r.duration_s := load_pos hr
    rw [compute_baseline, if_neg hempty, if_neg hempty]
    simp only [speedupCell]
    rw [if_pos ⟨ne_of_gt hmean, ne_of_gt hd⟩, if_pos (ne_of_gt (div_pos hmean hd))]

unseal Rat.add Rat.mul Rat.inv Rat.sub in
/-- C2 witness: a single baseline row of duration 2 yields baseline mean 2 and
speedup cell `2 / 2 = 1` for that row. -/
theorem c2_witness :
    speedupCell
        (compute_baseline
          (load_build_rows
            [⟨"r1".data, some "Run nix build".data,
              some "build_z_cachetool_none_phase_generate-cache".data,
              some "2.0".data⟩]
            [⟨some "r1".data, none, some 5⟩] (fun _ _ => true))
          "z_build".data) 2 = Cell.rat 1 := by
  have h : speedupCell
      (compute_baseline
        (load_build_rows
          [⟨"r1".data, some "Run nix build".data,
            some "build_z_cachetool_none_phase_generate-cache".data,
            some "2.0".data⟩]
          [⟨some "r1".data, none, some 5⟩] (fun _ _ => true))
        "z_build".data) 2 =
      (if baselineVals
          (load_build_rows
            [⟨"r1".data, some "Run nix build".data,
              some "build_z_cachetool_none_phase_generate-cache".data,
              some "2.0".data⟩]
            [⟨some "r1".data, none, some 5⟩] (fun _ _ => true))
          "z_build".data = [] then Cell.blank
       else Cell.rat
        ((baselineVals
            (load_build_rows
              [⟨"r1".data, some "Run nix build".data,
                some "build_z_cachetool_none_phase_generate-cache".data,
                some "2.0".data⟩]
              [⟨some "r1".data, none, some 5⟩] (fun _ _ => true))
            "z_build".data).sum /
          ((baselineVals
            (load_build_rows
              [⟨"r1".data, some "Run nix build".data,
                some "build_z_cachetool_none_phase_generate-cache".data,
                some "2.0".data⟩]
              [⟨some "r1".data, none, some 5⟩] (fun _ _ => true))
            "z_build".data).length : ℚ) / 2)) :=
    c2_speedup_cell _ _ _
      ({ run_id := "r1".data, run_number := 5,
         job_name_raw := "build_z_cachetool_none_phase_generate-cache".data,
         job_name := "z_build".data, target := "z".data, tool := "none".data,
         phase := "generate-cache".data, duration_s := 2 } : BuildRow) _
      (by decide) rfl
  rw [h, if_neg (by decide)]
  congr 1

/-! ## Claim C5: startup behaviour on missing input files -/

/-- C5: evaluation of the startup of `main()` at the failing input.  When the
selection whitelist itself is among the missing files, the program aborts with
the single line of `read_selection_csv` — which names neither the other
missing files (here the steps CSV) nor any remediation hint — because
`read_selection_csv` runs before the enumerating existence check.  When only
a non-whitelist input is missing, the enumerating message with both hints is
produced as documented. -/
theorem c5_missing_files_message :
    mainStartup ⟨false, false, true, true⟩ = some [selectionNotFoundLine] ∧
    mentionsPath [selectionNotFoundLine] stepsPath = false ∧
    mentionsPath [selectionNotFoundLine] hintPlaceLine = false ∧
    mentionsPath [selectionNotFoundLine] hintFetchLine = false ∧
    mainStartup ⟨true, false, true, true⟩ =
      some [missingHeaderLine, " - ".data ++ stepsPath, hintPlaceLine,
        hintFetchLine] :=
  ⟨rfl, by decide, by decide, by decide, rfl⟩

/-! ## Claim C7: the summary standard deviation -/

/-- C7: the summary writer emits one record per nonempty
`(job_name, tool, phase)` group, whose `build_std_s` cell is the
Bessel-corrected sample standard deviation (divisor `n − 1`) of the group's
durations, exactly `0.0` for a group of size 1 and blank for a group of
size 0 — and every group the writer emits has size at least 1. -/
theorem c7_summary_std :
    ∀ (rows : List BuildRow) (job_totals : JobTotals) (k : Str × Str × Str)
      (ds : List ℚ),
      ds = (groupRows rows k).map (fun r => r.duration_s) →
      (write_summary_rows rows job_totals =
        [Cell.str "job_name".data, Cell.str "tool".data, Cell.str "phase".data,
         Cell.str "n".data, Cell.str "build_mean_s".data,
         Cell.str "build_std_s".data, Cell.str "job_total_mean_s".data,
         Cell.str "build_share_mean".data] ::
          (summaryKeys rows).map (fun g => summaryRecord rows job_totals g)) ∧
      summaryStdCell rows k =
        (if ds = [] then Cell.blank
         else if ds.length = 1 then Cell.real 0
         else Cell.real (Real.sqrt
          (((ds.map (fun x => (x - ds.sum / ds.length) ^ 2)).sum /
            ((ds.length : ℚ) - 1) : ℚ) : ℝ))) ∧
      (summaryRecord rows job_totals k)[5]? = some (summaryStdCell rows k) ∧
      allElems (fun g => groupRows rows g ≠ []) (summaryKeys rows) := by
  intro rows job_totals k ds hds
  refine ⟨rfl, ?_, ?_, ?_⟩
  · subst hds
    unfold summaryStdCell
    generalize (groupRows rows k).map (fun r => r.duration_s) = xs
    unfold stdFn
    rcases xs with _ | ⟨a, _ | ⟨b, tl⟩⟩
    · simp
    · simp
    · rw [if_neg (show ¬ (a :: b :: tl : List ℚ).length < 2 by simp),
          if_neg (show ¬ (a :: b :: tl : List ℚ) = [] by simp),
          if_neg (show ¬ (a :: b :: tl : List ℚ).length = 1 by simp)]
      rfl
  · simp only [summaryRecord, summaryStdCell, List.map_map]
    rfl
  · rw [allElems_iff_mem]
    intro g hg
    have hg2 : g ∈ (rows.map (fun r => (r.job_name, r.tool, r.phase))).dedup :=
      ((List.perm_insertionSort _ _).mem_iff).mp hg
    obtain ⟨r, hr, hkey⟩ := List.mem_map.mp (List.mem_dedup.mp hg2)
    exact List.ne_nil_of_mem (List.mem_filter.mpr ⟨hr, by simp [hkey]⟩)

/-- C7 witness: a group with the single duration 2 gets standard deviation
exactly `0.0`. -/
theorem c7_witness :
    summaryStdCell
        [⟨"r1".data, 5, "raw".data, "j".data, "t".data, "x".data, "p".data, 2⟩]
        ("j".data, "x".data, "p".data) = Cell.real 0 := by
  have h := (c7_summary_std
    [⟨"r1".data, 5, "raw".data, "j".data, "t".data, "x".data, "p".data, 2⟩] []
    ("j".data, "x".data, "p".data) _ rfl).2.1
  rw [h, if_neg (by decide), if_pos (by decide)]

/-! ## Claim C3: cycle-index assignment -/

theorem dictGet_cons_mem {α β : Type} [DecidableEq α] {e : α × β}
    {A : List (α × β)} {k : α} (h : k ∈ A.map Prod.fst) :
    dictGet (e :: A) k = dictGet A k := by
  unfold dictGet
  rw [List.reverse_cons, List.find?_append]
  obtain ⟨pr, hpr, hprk⟩ := List.mem_map.mp h
  rcases ho : A.reverse.find? (fun e => decide (e.1 = k)) with _ | v
  · exfalso
    rw [List.find?_eq_none] at ho
    exact ho pr (List.mem_reverse.mpr hpr) (by simp [hprk])
  · rw [ho]
    rfl

theorem dictGet_cons_self {α β : Type} [DecidableEq α] {e : α × β}
    {A : List (α × β)} (h : e.1 ∉ A.map Prod.fst) :
    dictGet (e :: A) e.1 = some e.2 := by
  unfold dictGet
  rw [List.reverse_cons, List.find?_append]
  have hnone : A.reverse.find? (fun x => decide (x.1 = e.1)) = none := by
    rw [List.find?_eq_none]
    intro pr hpr
    simp only [decide_eq_true_eq]
    intro hx
    exact h (List.mem_map.mpr ⟨pr, List.mem_reverse.mp hpr, hx⟩)
  rw [hnone]
  simp [List.find?]

theorem keys_cycleAssignFrom (i : ℕ) (l : List BuildRow) :
    (cycleAssignFrom i l).map Prod.fst = l.map (fun r => r.run_id) := by
  induction l generalizing i with
  | nil => rfl
  | cons a tl ih => simp [cycleAssignFrom, ih]

theorem cycle_lookup_all (l : List BuildRow) (i0 : ℕ)
    (h : (l.map (fun r => r.run_id)).Nodup) :
    l.map (fun r => dictGet (cycleAssignFrom i0 l) r.run_id) =
      (List.range l.length).map (fun j => some (i0 + j + 1)) := by
  induction l generalizing i0 with
  | nil => rfl
  | cons a tl ih =>
    obtain ⟨ha, htl⟩ :
        a.run_id ∉ tl.map (fun r => r.run_id) ∧
          (tl.map (fun r => r.run_id)).Nodup := by
      simpa using h
    rw [List.map_cons]
    have hhead : dictGet (cycleAssignFrom i0 (a :: tl)) a.run_id = some (i0 + 1) := by
      show dictGet ((a.run_id, i0 + 1) :: cycleAssignFrom (i0 + 1) tl) a.run_id =
        some (i0 + 1)
      exact dictGet_cons_self (by rwa [keys_cycleAssignFrom])
    have htail :
        tl.map (fun r => dictGet (cycleAssignFrom i0 (a :: tl)) r.run_id) =
          tl.map (fun r => dictGet (cycleAssignFrom (i0 + 1) tl) r.run_id) := by
      refine List.map_congr_left (fun r hr => ?_)
      show dictGet ((a.run_id, i0 + 1) :: cycleAssignFrom (i0 + 1) tl) r.run_id = _
      exact dictGet_cons_mem
        (by rw [keys_cycleAssignFrom]; exact List.mem_map.mpr ⟨r, hr, rfl⟩)
    rw [hhead, htail, ih (i0 + 1) htl, List.length_cons,
      List.range_succ_eq_map, List.map_cons, List.map_map]
    congr 1
    refine List.map_congr_left (fun j hj => ?_)
    show some (i0 + 1 + j + 1) = some (i0 + (j + 1) + 1)
    congr 1
    omega

/-- C3 (amended): within any `(target, tool, phase)` group whose rows have
pairwise distinct `run_id` values, the cycle indices assigned by
`group_cycle_index`, read off along the rows sorted by increasing run_number,
are exactly the contiguous sequence `1..N` where `N` is the size of the
group.  (Without the distinctness proviso the run_id-keyed dict comprehension
overwrites earlier indices, see the counterexample.) -/
theorem c3_cycle_index_amended :
    ∀ (rows : List BuildRow) (k : Str × Str × Str),
      ((groupRows3 rows k).map (fun r => r.run_id)).Nodup →
      (sortRn (groupRows3 rows k)).map
          (fun r => group_cycle_index rows k r.run_id) =
        (List.range (groupRows3 rows k).length).map (fun j => some (j + 1)) := by
  intro rows k h
  have hperm := List.perm_insertionSort
    (fun a b => a.run_number ≤ b.run_number) (groupRows3 rows k)
  have hnd : ((sortRn (groupRows3 rows k)).map (fun r => r.run_id)).Nodup :=
    ((hperm.map (fun r => r.run_id)).nodup_iff).mpr h
  have h0 := cycle_lookup_all (sortRn (groupRows3 rows k)) 0 hnd
  have hlen : (sortRn (groupRows3 rows k)).length = (groupRows3 rows k).length :=
    hperm.length_eq
  simp only [group_cycle_index]
  rw [h0, hlen]
  refine List.map_congr_left (fun j hj => ?_)
  congr 1
  omega

/-- C3 witness: two rows of one group with distinct run_ids, run_numbers 2 and
1, receive cycle indices 1 and 2 in run_number order. -/
theorem c3_witness :
    (sortRn (groupRows3
        [⟨"a".data, 2, "raw".data, "j".data, "t".data, "x".data, "p".data, 1⟩,
         ⟨"b".data, 1, "raw".data, "j".data, "t".data, "x".data, "p".data, 1⟩]
        ("t".data, "x".data, "p".data))).map
      (fun r => group_cycle_index
        [⟨"a".data, 2, "raw".data, "j".data, "t".data, "x".data, "p".data, 1⟩,
         ⟨"b".data, 1, "raw".data, "j".data, "t".data, "x".data, "p".data, 1⟩]
        ("t".data, "x".data, "p".data) r.run_id) = [some 1, some 2] := by
  have h := c3_cycle_index_amended
    [⟨"a".data, 2, "raw".data, "j".data, "t".data, "x".data, "p".data, 1⟩,
     ⟨"b".data, 1, "raw".data, "j".data, "t".data, "x".data, "p".data, 1⟩]
    ("t".data, "x".data, "p".data) (by decide)
  rw [h]
  decide

/-- C3 counterexample: two rows of one group sharing the run_id `a` collapse
in the run_id-keyed index dict, so the indices read off in run_number order
are `[2, 2]`, not the contiguous `1..N`. -/
theorem c3_counterexample :
    ¬ ((sortRn (groupRows3
        [⟨"a".data, 1, "raw".data, "j".data, "t".data, "x".data, "p".data, 1⟩,
         ⟨"a".data, 2, "raw".data, "j".data, "t".data, "x".data, "p".data, 1⟩]
        ("t".data, "x".data, "p".data))).map
      (fun r => group_cycle_index
        [⟨"a".data, 1, "raw".data, "j".data, "t".data, "x".data, "p".data, 1⟩,
         ⟨"a".data, 2, "raw".data, "j".data, "t".data, "x".data, "p".data, 1⟩]
        ("t".data, "x".data, "p".data) r.run_id) =
      (List.range (groupRows3
        [⟨"a".data, 1, "raw".data, "j".data, "t".data, "x".data, "p".data, 1⟩,
         ⟨"a".data, 2, "raw".data, "j".data, "t".data, "x".data, "p".data, 1⟩]
        ("t".data, "x".data, "p".data)).length).map (fun j => some (j + 1))) := by
  decide

/-! ## Claim C4: job-name parsing -/

theorem takeWhile_app_of_all {p : Char → Bool} {l1 l2 : Str}
    (h : ∀ c ∈ l1, p c = true) :
    (l1 ++ l2).takeWhile p = l1 ++ l2.takeWhile p := by
  induction l1 with
  | nil => rfl
  | cons a tl ih =>
    have ha := h a (by simp)
    simp only [List.cons_append, List.takeWhile_cons, ha, if_true]
    rw [ih (fun c hc => h c (by simp [hc]))]

theorem dropWhile_app_of_all {p : Char → Bool} {l1 l2 : Str}
    (h : ∀ c ∈ l1, p c = true) :
    (l1 ++ l2).dropWhile p = l2.dropWhile p := by
  induction l1 with
  | nil => rfl
  | cons a tl ih =>
    have ha := h a (by simp)
    simp only [List.cons_append, List.dropWhile_cons, ha, if_true]
    exact ih (fun c hc => h c (by simp [hc]))

theorem takeWhile_all {p : Char → Bool} {l : Str} (h : ∀ c ∈ l, p c = true) :
    l.takeWhile p = l := by
  have h2 : (l ++ []).takeWhile p = l ++ ([] : Str).takeWhile p :=
    takeWhile_app_of_all h
  simpa using h2

theorem dropWhile_all {p : Char → Bool} {l : Str} (h : ∀ c ∈ l, p c = true) :
    l.dropWhile p = [] := by
  have h2 : (l ++ []).dropWhile p = ([] : Str).dropWhile p :=
    dropWhile_app_of_all h
  simpa using h2

theorem stripPre_app (pre s : Str) : stripPre pre (pre ++ s) = some s := by
  induction pre with
  | nil => rfl
  | cons a tl ih => simp [stripPre, ih]

theorem stripPre_eq_some {pre s r : Str} (h : stripPre pre s = some r) :
    s = pre ++ r := by
  induction pre generalizing s with
  | nil =>
    have hsr : s = r := by simpa [stripPre] using h
    simp [hsr]
  | cons a tl ih =>
    cases s with
    | nil => exact absurd h (by simp [stripPre])
    | cons b bs =>
      unfold stripPre at h
      split at h
      · next hab => rw [List.cons_append, hab, ih h]
      · exact absurd h (by simp)

theorem notUnd_all {t : Str} (htu : '_' ∉ t) : ∀ c ∈ t, (c != '_') = true := by
  intro c hc
  simp only [bne_iff_ne, ne_eq]
  intro hce
  exact htu (hce ▸ hc)

theorem notNl_all {t : Str} (htu : '\n' ∉ t) : ∀ c ∈ t, (c != '\n') = true := by
  intro c hc
  simp only [bne_iff_ne, ne_eq]
  intro hce
  exact htu (hce ▸ hc)

theorem jobNameMatch_of_form {t x p q : Str} (ht : t ≠ []) (htu : '_' ∉ t)
    (hx : x ≠ []) (hxu : '_' ∉ x) (hp : p ≠ []) (hpn : '\n' ∉ p)
    (hq : q = p ∨ q = p ++ ['\n']) :
    jobNameMatch ("build_".data ++ t ++ "_cachetool_".data ++ x ++
      "_phase_".data ++ q) = some (t, x, p) := by
  have hassoc : "build_".data ++ t ++ "_cachetool_".data ++ x ++
      "_phase_".data ++ q =
      "build_".data ++ (t ++ ("_cachetool_".data ++ (x ++
        ("_phase_".data ++ q)))) := by
    simp [List.append_assoc]
  rw [hassoc]
  unfold jobNameMatch
  rw [stripPre_app]
  have e1 : (t ++ ("_cachetool_".data ++ (x ++ ("_phase_".data ++ q)))).takeWhile
      (fun c => c != '_') = t := by
    rw [takeWhile_app_of_all (notUnd_all htu)]
    rw [show ("_cachetool_".data ++ (x ++ ("_phase_".data ++ q))).takeWhile
      (fun c => c != '_') = [] from rfl]
    exact List.append_nil t
  have e2 : (t ++ ("_cachetool_".data ++ (x ++ ("_phase_".data ++ q)))).dropWhile
      (fun c => c != '_') = "_cachetool_".data ++ (x ++ ("_phase_".data ++ q)) := by
    rw [dropWhile_app_of_all (notUnd_all htu)]
    rfl
  simp only [e1, e2, if_neg ht]
  rw [stripPre_app]
  have e3 : (x ++ ("_phase_".data ++ q)).takeWhile (fun c => c != '_') = x := by
    rw [takeWhile_app_of_all (notUnd_all hxu)]
    rw [show ("_phase_".data ++ q).takeWhile (fun c => c != '_') = [] from rfl]
    exact List.append_nil x
  have e4 : (x ++ ("_phase_".data ++ q)).dropWhile (fun c => c != '_') =
      "_phase_".data ++ q := by
    rw [dropWhile_app_of_all (notUnd_all hxu)]
    rfl
  simp only [e3, e4, if_neg hx]
  rw [stripPre_app]
  rcases hq with hq | hq <;> rw [hq]
  · have e5 : p.takeWhile (fun c => c != '\n') = p := takeWhile_all (notNl_all hpn)
    have e6 : p.dropWhile (fun c => c != '\n') = [] := dropWhile_all (notNl_all hpn)
    simp only [e5, e6, if_neg hp]
    simp
  · have e5 : (p ++ ['\n']).takeWhile (fun c => c != '\n') = p := by
      rw [takeWhile_app_of_all (notNl_all hpn)]
      rw [show (['\n'] : Str).takeWhile (fun c => c != '\n') = [] from rfl]
      exact List.append_nil p
    have e6 : (p ++ ['\n']).dropWhile (fun c => c != '\n') = ['\n'] := by
      rw [dropWhile_app_of_all (notNl_all hpn)]
      rfl
    simp only [e5, e6, if_neg hp]
    simp

theorem notMem_of_takeWhile_bne {c : Char} {l : Str} :
    c ∉ l.takeWhile (fun d => d != c) := by
  intro hc
  have := List.mem_takeWhile_imp hc
  simp at this

theorem jobNameMatch_some {s t x p : Str}
    (h : jobNameMatch s = some (t, x, p)) :
    ∃ tail, (tail = [] ∨ tail = ['\n']) ∧ IsJobForm s t x (p ++ tail) := by
  unfold jobNameMatch at h
  repeat' split at h
  any_goals exact Option.noConfusion h
  rename_i u1 r1 heq1 hne1 u2 r2 heq2 hne2 u3 r3 heq3 hne3 htail
  injection h with h
  injection h with het h
  injection h with hex hep
  refine ⟨r3.dropWhile (fun c => c != '\n'), htail, ?_⟩
  have hs1 : s = "build_".data ++ r1 := stripPre_eq_some heq1
  have hr1 : r1 = t ++ r1.dropWhile (fun c => c != '_') := by
    conv_lhs => rw [← List.takeWhile_append_dropWhile
      (p := fun c => c != '_') (l := r1)]
    rw [het]
  have hd1 : r1.dropWhile (fun c => c != '_') = "_cachetool_".data ++ r2 :=
    stripPre_eq_some heq2
  have hr2 : r2 = x ++ r2.dropWhile (fun c => c != '_') := by
    conv_lhs => rw [← List.takeWhile_append_dropWhile
      (p := fun c => c != '_') (l := r2)]
    rw [hex]
  have hd2 : r2.dropWhile (fun c => c != '_') = "_phase_".data ++ r3 :=
    stripPre_eq_some heq3
  have hr3 : r3 = p ++ r3.dropWhile (fun c => c != '\n') := by
    conv_lhs => rw [← List.takeWhile_append_dropWhile
      (p := fun c => c != '\n') (l := r3)]
    rw [hep]
  refine ⟨?_, ?_, ?_, ?_, ?_, ?_⟩
  · rw [hs1, hr1, hd1, hr2, hd2, ← hr3]
    simp [List.append_assoc]
  · rw [← het]; exact hne1
  · rw [← het]; exact notMem_of_takeWhile_bne
  · rw [← hex]; exact hne2
  · rw [← hex]; exact notMem_of_takeWhile_bne
  · intro hnil
    rw [← hep] at hnil
    exact hne3 (by simpa using (List.append_eq_nil.mp hnil).1)

/-- C4 (amended): `parse_job` is total and deterministic.  A string of the
form `build_<target>_cachetool_<tool>_phase_<phase>` whose phase contains no
newline yields exactly `(target, normalized tool, phase)`; a string of that
form whose phase is a nonempty newline-free text followed by one trailing
newline also matches, with the trailing newline dropped from the phase (the
`$` of the job-name pattern matches just before a final newline); any string
admitting no such decomposition yields no match, and the row is excluded. -/
theorem c4_parse_job_amended :
    ∀ s : Str,
      (∀ t x p, IsJobForm s t x p → '\n' ∉ p →
        parse_job s = some (t, normTool x, p)) ∧
      (∀ t x p, IsJobForm s t x (p ++ ['\n']) → '\n' ∉ p → p ≠ [] →
        parse_job s = some (t, normTool x, p)) ∧
      ((∀ t x p, ¬ IsJobForm s t x p) → parse_job s = none) := by
  intro s
  refine ⟨?_, ?_, ?_⟩
  · intro t x p hform hpn
    obtain ⟨hs, ht, htu, hx, hxu, hp⟩ := hform
    subst hs
    unfold parse_job
    rw [jobNameMatch_of_form ht htu hx hxu hp hpn (Or.inl rfl)]
    rfl
  · intro t x p hform hpn hp
    obtain ⟨hs, ht, htu, hx, hxu, hpq⟩ := hform
    subst hs
    unfold parse_job
    rw [jobNameMatch_of_form ht htu hx hxu hp hpn (Or.inr rfl)]
    rfl
  · intro hno
    rcases hm : jobNameMatch s with _ | tr
    · simp [parse_job, hm]
    · obtain ⟨t, x, p⟩ := tr
      obtain ⟨tail, _, hform⟩ := jobNameMatch_some hm
      exact absurd hform (hno _ _ _)

/-- C4 witness: a well-formed job name parses to its three components with the
tool alias normalized. -/
theorem c4_witness :
    parse_job "build_marp_cachetool_cachix-action_phase_use-cache".data =
      some ("marp".data, "cachix".data, "use-cache".data) := by
  have h := (c4_parse_job_amended
      "build_marp_cachetool_cachix-action_phase_use-cache".data).1
    "marp".data "cachix-action".data "use-cache".data (by decide) (by decide)
  exact h.trans (by decide)

/-- C4 counterexample: the string `build_t_cachetool_x_phase_p\n` is of the
job-name form with phase `p\n`, yet parsing does not return that phase — it
matches with the trailing newline dropped, returning phase `p`. -/
theorem c4_counterexample :
    IsJobForm "build_t_cachetool_x_phase_p\n".data "t".data "x".data "p\n".data ∧
      parse_job "build_t_cachetool_x_phase_p\n".data ≠
        some ("t".data, normTool "x".data, "p\n".data) ∧
      parse_job "build_t_cachetool_x_phase_p\n".data =
        some ("t".data, "x".data, "p".data) :=
  ⟨by decide, by decide, by decide⟩
